import Mathlib

/-!
Verification development for the webrtc-client-server repository: a server
renders a bouncing ball, paces video frames, and evaluates the positional
error of coordinate reports sent back by a client over a data channel.
The definitions below are shallow embeddings of the Python sources in
`src/server/server.py` and `src/client/client.py`.
-/

namespace WebrtcBall

/-! ## Screen constants (`src/server/server.py`, module level) -/

/-- `SCREEN_HEIGHT = 640`.  Despite its name this constant is used as the
x-axis extent: `screen_size = (SCREEN_HEIGHT, SCREEN_WIDTH)` and
`screen_size[0]` bounds `position_x`. -/
def SCREEN_HEIGHT : ℤ := 640

/-- `SCREEN_WIDTH = 480`, used as the y-axis extent (`screen_size[1]`). -/
def SCREEN_WIDTH : ℤ := 480

/-- `VIDEO_CLOCK_RATE = 90000`. -/
def VIDEO_CLOCK_RATE : ℤ := 90000

/-! ## `BouncingBallTrack` state and motion (`src/server/server.py`) -/

/-- The mutable fields of `BouncingBallTrack` that the motion code touches:
`position_x`, `position_y`, `speed_x`, `speed_y`.  The radius (20) and the
screen size are constants set in `__init__` and are inlined where used. -/
structure BallState where
  position_x : ℤ
  position_y : ℤ
  speed_x : ℤ
  speed_y : ℤ
deriving DecidableEq, Repr

/-- `BouncingBallTrack.__init__`: position starts at
`(screen_size[0] // 2, screen_size[1] // 2)` (Python floor division; the
operands are positive so `/` on ℤ agrees) and speed at `(1, 1)`. -/
def ballInit : BallState :=
  { position_x := SCREEN_HEIGHT / 2
    position_y := SCREEN_WIDTH / 2
    speed_x := 1
    speed_y := 1 }

/-- The ball radius, `self.ball_radius = 20`. -/
def ball_radius : ℤ := 20

/-- `BouncingBallTrack.update_delta_with_bound`: per axis, flip the speed
sign when `position + radius` reaches the far boundary (`if`), otherwise
when `position - radius` reaches 0 (`elif`).  Position is not changed. -/
def update_delta_with_bound (b : BallState) : BallState :=
  let sx :=
    if b.position_x + ball_radius ≥ SCREEN_HEIGHT then -b.speed_x
    else if b.position_x - ball_radius ≤ 0 then -b.speed_x
    else b.speed_x
  let sy :=
    if b.position_y + ball_radius ≥ SCREEN_WIDTH then -b.speed_y
    else if b.position_y - ball_radius ≤ 0 then -b.speed_y
    else b.speed_y
  { b with speed_x := sx, speed_y := sy }

/-- The state effect of `BouncingBallTrack.get_next_image`: move the
position by the speed on each axis, then apply
`update_delta_with_bound`.  (The rendering of the frame is elided: it does
not touch the ball state.) -/
def get_next_image (b : BallState) : BallState :=
  update_delta_with_bound
    { b with
      position_x := b.position_x + b.speed_x
      position_y := b.position_y + b.speed_y }

/-- One axis of `get_next_image`: move by the speed, then flip the speed
when `p + 20` reaches the bound `B` (far check first) or `p - 20` reaches 0
(near check, `elif`).  `get_next_image` acts as this function with
`B = SCREEN_HEIGHT` on the x components and `B = SCREEN_WIDTH` on the y
components. -/
def stepAxis (B : ℤ) (pv : ℤ × ℤ) : ℤ × ℤ :=
  let p := pv.1 + pv.2
  if p + ball_radius ≥ B then (p, -pv.2)
  else if p - ball_radius ≤ 0 then (p, -pv.2)
  else (p, pv.2)

/-- Invariant of one axis of the bouncing motion with bound `B`: moving
right the position is at most `B - 21`, moving left it is at least 21 and
at most `B - 20`. -/
def AxisInv (B : ℤ) (pv : ℤ × ℤ) : Prop :=
  (pv.2 = 1 ∧ 20 ≤ pv.1 ∧ pv.1 ≤ B - 21) ∨
  (pv.2 = -1 ∧ 21 ≤ pv.1 ∧ pv.1 ≤ B - 20)

/-! ## Frame pacing (`BouncingBallTrack.next_timestamp`)

The timestamp increment in the source is `int(VIDEO_PTIME * VIDEO_CLOCK_RATE)`
where `VIDEO_PTIME = 1 / 30` is an IEEE binary64 value and the product is a
binary64 multiplication.  We model binary64 arithmetic exactly over ℚ:
round-to-nearest-even on the 2⁻⁵⁷ grid for `1 / 30` (which lies in
`[2⁻⁵, 2⁻⁴)`, where the ulp of a 53-bit significand is 2⁻⁵⁷) and on the
2⁻⁴¹ grid for the product (which lies in `[2¹¹, 2¹²)`, ulp 2⁻⁴¹), and
truncation toward zero for Python's `int()`. -/

/-- Round a rational to the nearest integer, ties to even (the IEEE 754
default rounding). -/
def rne (x : ℚ) : ℤ :=
  let f := ⌊x⌋
  if x - f < 1/2 then f
  else if 1/2 < x - f then f + 1
  else if f % 2 = 0 then f else f + 1

/-- Python's `int()` on a (finite) float value: truncation toward zero. -/
def pyTrunc (x : ℚ) : ℤ := if 0 ≤ x then ⌊x⌋ else ⌈x⌉

/-- The binary64 value of the Python expression `1 / 30`
(`VIDEO_PTIME` in `src/server/server.py`): the exact quotient rounded to
the nearest multiple of 2⁻⁵⁷. -/
def VIDEO_PTIME : ℚ := (rne ((1/30 : ℚ) * 2^57) : ℚ) / 2^57

/-- The binary64 product `VIDEO_PTIME * VIDEO_CLOCK_RATE`: the exact
product rounded to the nearest multiple of 2⁻⁴¹. -/
def ptimeTimesClock : ℚ :=
  (rne (VIDEO_PTIME * (VIDEO_CLOCK_RATE : ℚ) * 2^41) : ℚ) / 2^41

/-- The per-call timestamp increment `int(VIDEO_PTIME * VIDEO_CLOCK_RATE)`. -/
def timestampStep : ℤ := pyTrunc ptimeTimesClock

/-- One call of `BouncingBallTrack.next_timestamp`, state effect on the
timestamp only: with no `_timestamp` attribute yet (`none`) it sets the
timestamp to 0; otherwise it adds `int(VIDEO_PTIME * VIDEO_CLOCK_RATE)`.
Returns the timestamp handed to the caller and the new state. -/
def next_timestamp_step : Option ℤ → ℤ × Option ℤ
  | none => (0, some 0)
  | some t => (t + timestampStep, some (t + timestampStep))

/-- Timestamp returned by the n-th call (0-indexed) of `next_timestamp`
on a fresh track, together with the state after that call. -/
def next_timestamp_calls : ℕ → ℤ × Option ℤ
  | 0 => next_timestamp_step none
  | n + 1 => next_timestamp_step (next_timestamp_calls n).2

/-- The argument handed to `asyncio.sleep` on a non-first call of
`next_timestamp`: `self._start + (self._timestamp / VIDEO_CLOCK_RATE) -
time.time()`, with `start` the recorded start instant, `now` the current
wall-clock reading and `timestamp` the already incremented timestamp. -/
def next_timestamp_wait (start now : ℚ) (timestamp : ℤ) : ℚ :=
  start + (timestamp : ℚ) / (VIDEO_CLOCK_RATE : ℚ) - now

/-- Modelled from the spec: the suspension performed by the external
`asyncio.sleep` primitive, which is not part of `src/` — a non-positive
argument yields an immediate return (zero suspension) and no error, so the
effective suspension time is `max wait 0`. -/
def asyncio_sleep_duration (wait : ℚ) : ℚ := max wait 0

/-! ## `Server.compute_error` (`src/server/server.py`) -/

/-- `Server.compute_error`: Euclidean distance between the ball track's
current position and the client-reported coordinate pair, with Python's
`math.sqrt` modelled as the real square root. -/
noncomputable def compute_error (balltrack : BallState) (client : ℤ × ℤ) : ℝ :=
  Real.sqrt (((client.1 : ℝ) - (balltrack.position_x : ℝ)) ^ 2 +
    ((client.2 : ℝ) - (balltrack.position_y : ℝ)) ^ 2)

/-! ## Coordinate wire format

The client sends `str(coordinates)` where `coordinates` is the dict
`{"x": <int>, "y": <int>}`; Python renders it as, e.g., `{'x': 10, 'y': 20}`.
The server recovers the pair with `ast.literal_eval(message)` followed by
indexing `["x"]` and `["y"]` inside `compute_error`.  Strings are embedded
as `List Char`; the brace and quote characters are written by code point. -/

/-- The single-quote character `'` (code point 39). -/
def squote : Char := Char.ofNat 39

/-- The opening-brace character (code point 123). -/
def lbrace : Char := Char.ofNat 123

/-- The closing-brace character (code point 125). -/
def rbrace : Char := Char.ofNat 125

/-- The decimal digit `d` as a character. -/
def digitChar (d : ℕ) : Char := Char.ofNat (48 + d)

/-- Numeric value of a decimal digit character. -/
def digitVal (c : Char) : ℕ := c.toNat - 48

/-- Whether a character is a decimal digit. -/
def isDigitCh (c : Char) : Bool := 48 ≤ c.toNat && c.toNat ≤ 57

/-- Python's decimal rendering of a natural number (most significant digit
first; `0` renders as `"0"`). -/
def natChars (n : ℕ) : List Char :=
  if n = 0 then [digitChar 0] else ((Nat.digits 10 n).reverse).map digitChar

/-- Python's decimal rendering of an integer: a leading `-` for negative
values, then the decimal digits of the absolute value. -/
def intChars (x : ℤ) : List Char :=
  if x < 0 then '-' :: natChars (-x).toNat else natChars x.toNat

/-- Numeric value of a most-significant-first list of digit characters. -/
def readNat (l : List Char) : ℕ := Nat.ofDigits 10 ((l.map digitVal).reverse)

/-- Expect the literal `pat` at the head of the input; return the rest. -/
def dropLit : List Char → List Char → Option (List Char)
  | [], l => some l
  | _ :: _, [] => none
  | c :: cs, d :: ds => if c = d then dropLit cs ds else none

/-- Read a maximal nonempty run of decimal digits at the head of the input
as a natural number. -/
def parseNatTok (l : List Char) : Option (ℕ × List Char) :=
  if l.takeWhile isDigitCh = [] then none
  else some (readNat (l.takeWhile isDigitCh), l.dropWhile isDigitCh)

/-- Read an optionally `-`-signed decimal integer at the head of the
input. -/
def parseIntTok : List Char → Option (ℤ × List Char)
  | [] => none
  | c :: rest =>
      if c = '-' then
        (parseNatTok rest).map (fun p => (-(p.1 : ℤ), p.2))
      else
        (parseNatTok (c :: rest)).map (fun p => ((p.1 : ℤ), p.2))

/-- The literal text before the x value in the rendered dict. -/
def keyXLit : List Char := [lbrace, squote, 'x', squote, ':', ' ']

/-- The literal text between the x value and the y value. -/
def keyYLit : List Char := [',', ' ', squote, 'y', squote, ':', ' ']

/-- `str({"x": x, "y": y})` as sent by `Client.send_coordinates_to_server`
(`self.channel.send(str(coordinates))` in `src/client/client.py`). -/
def serializeCoordChars (x y : ℤ) : List Char :=
  keyXLit ++ intChars x ++ keyYLit ++ intChars y ++ [rbrace]

/-- `ast.literal_eval(message)` followed by `["x"]`/`["y"]` indexing, as
the server's `on_message`/`compute_error` consume a message, restricted to
the coordinate wire format the client produces: `none` models an exception
raised during evaluation or indexing. -/
def parseCoordChars (l : List Char) : Option (ℤ × ℤ) :=
  match dropLit keyXLit l with
  | none => none
  | some l1 =>
      match parseIntTok l1 with
      | none => none
      | some (x, l2) =>
          match dropLit keyYLit l2 with
          | none => none
          | some l3 =>
              match parseIntTok l3 with
              | none => none
              | some (y, l4) => if l4 = [rbrace] then some (x, y) else none

/-! ## The server's data-channel message handler (`on_message` inside
`Server.run_offer`) -/

/-- An inbound data-channel message: aiortc delivers either a `str` or a
`bytes` payload. -/
inductive DCMessage where
  | strMsg (content : List Char)
  | bytesMsg (content : List ℕ)
deriving DecidableEq, Repr

/-- The `on_message` handler: `if isinstance(message, str)` guards the
whole body, so a `bytes` message is skipped silently; a `str` message is
passed to `ast.literal_eval` and then to `compute_error`, and a message
that does not evaluate to an indexable coordinate mapping raises an
exception out of the handler (`.error`).  On success the handler computes
the error for the extracted pair (`.ok (some pair)`). -/
def on_message : DCMessage → Except Unit (Option (ℤ × ℤ))
  | .strMsg s =>
      match parseCoordChars s with
      | some xy => .ok (some xy)
      | none => .error ()
  | .bytesMsg _ => .ok none

/-! ## The client's coordinate-sending loop
(`Client.send_coordinates_to_server`, `src/client/client.py`) -/

/-- The state read and written by one iteration of the polling loop:
`self.channel` (`none` until the `datachannel` callback fires; otherwise
its `readyState` string) and the outbound coordinate queue (FIFO, oldest
first). -/
structure ClientLoopState where
  channel : Option String
  coordinate_queue : List (ℤ × ℤ)
deriving DecidableEq, Repr

/-- One iteration of the `while True` loop in
`send_coordinates_to_server`: if the channel is set, its `readyState` is
`"open"` and the queue is non-empty, dequeue one coordinate and send its
serialized form as a single message; otherwise do nothing.  Returns the
new state and the message sent, if any. -/
def send_coordinates_iteration (s : ClientLoopState) :
    ClientLoopState × Option (List Char) :=
  match s.channel, s.coordinate_queue with
  | some st, c :: rest =>
      if st = "open" then
        ({ s with coordinate_queue := rest }, some (serializeCoordChars c.1 c.2))
      else (s, none)
  | _, _ => (s, none)

/-! ## Session negotiation (`consume_signaling` / `run_offer`)

`consume_signaling` (identical in structure in `src/server/server.py` and
`src/client/client.py`) forwards each inbound object to the MediaSession
collaborator: descriptors to `setRemoteDescription` (answering an offer
with `createAnswer` + `setLocalDescription` + `send`), candidates to
`addIceCandidate`, and stops on BYE.  The collaborator itself (aiortc's
`RTCPeerConnection`) is not part of `src/`. -/

/-- A session descriptor type (`RTCSessionDescription.type`). -/
inductive DescType where
  | offer
  | answer
deriving DecidableEq, Repr

/-- An object received from the signaling channel: a session descriptor, a
connectivity candidate, or the BYE sentinel. -/
inductive SigMsg where
  | desc (t : DescType)
  | candidate
  | bye
deriving DecidableEq, Repr

/-- How many descriptors of each direction have been applied to the
session. -/
structure NegotiationState where
  localApplied : ℕ
  remoteApplied : ℕ
deriving DecidableEq, Repr

/-- The reported error for a descriptor applied out of order. -/
inductive ProtocolViolation where
  | duplicateDescriptor
deriving DecidableEq, Repr

/-- A fresh session: no descriptor applied yet. -/
def initialNegotiation : NegotiationState := ⟨0, 0⟩

/-- Modelled from the spec: `setLocalDescription` of the MediaSession
collaborator (aiortc `RTCPeerConnection`, not in `src/`) — per spec §4.1,
at most one local descriptor is ever applied per session and a second one
is a reported `ProtocolViolation`. -/
def setLocalDescription (s : NegotiationState) :
    Except ProtocolViolation NegotiationState :=
  if s.localApplied ≥ 1 then .error .duplicateDescriptor
  else .ok { s with localApplied := s.localApplied + 1 }

/-- Modelled from the spec: `setRemoteDescription` of the MediaSession
collaborator — at most one remote descriptor is ever applied per session
and a second one is a reported `ProtocolViolation`. -/
def setRemoteDescription (s : NegotiationState) :
    Except ProtocolViolation NegotiationState :=
  if s.remoteApplied ≥ 1 then .error .duplicateDescriptor
  else .ok { s with remoteApplied := s.remoteApplied + 1 }

/-- Modelled from the spec: `addIceCandidate` of the MediaSession
collaborator — an inbound candidate is applied immediately, independent of
descriptor state, and never fails. -/
def addIceCandidate (s : NegotiationState) :
    Except ProtocolViolation NegotiationState := .ok s

/-- `Server.consume_signaling`: loop over inbound signaling objects,
applying each descriptor as remote (and, when it is an offer, creating and
applying a local answer), applying each candidate, and returning on BYE.
An error raised by a session operation propagates out of the loop. -/
def consume_signaling :
    List SigMsg → NegotiationState → Except ProtocolViolation NegotiationState
  | [], s => .ok s
  | .desc t :: rest, s =>
      match setRemoteDescription s with
      | .error e => .error e
      | .ok s1 =>
          if t = DescType.offer then
            match setLocalDescription s1 with
            | .error e => .error e
            | .ok s2 => consume_signaling rest s2
          else consume_signaling rest s1
  | .candidate :: rest, s =>
      match addIceCandidate s with
      | .error e => .error e
      | .ok s1 => consume_signaling rest s1
  | .bye :: _, s => .ok s

/-- `Server.run_offer` restricted to its descriptor effects: create an
offer, apply it locally (and send it), then consume inbound signaling
objects. -/
def run_offer (msgs : List SigMsg) : Except ProtocolViolation NegotiationState :=
  match setLocalDescription initialNegotiation with
  | .error e => .error e
  | .ok s => consume_signaling msgs s

/-! ## Helper lemmas -/

lemma get_next_image_x (b : BallState) :
    ((get_next_image b).position_x, (get_next_image b).speed_x) =
      stepAxis SCREEN_HEIGHT (b.position_x, b.speed_x) := by
  simp only [get_next_image, update_delta_with_bound, stepAxis]
  split <;> first | rfl | (split <;> rfl)

lemma get_next_image_y (b : BallState) :
    ((get_next_image b).position_y, (get_next_image b).speed_y) =
      stepAxis SCREEN_WIDTH (b.position_y, b.speed_y) := by
  simp only [get_next_image, update_delta_with_bound, stepAxis]
  split <;> first | rfl | (split <;> rfl)

lemma iterate_get_next_image_x (n : ℕ) (b : BallState) :
    ((get_next_image^[n] b).position_x, (get_next_image^[n] b).speed_x) =
      (stepAxis SCREEN_HEIGHT)^[n] (b.position_x, b.speed_x) := by
  induction n generalizing b with
  | zero => simp
  | succ n ih =>
      rw [Function.iterate_succ_apply, Function.iterate_succ_apply,
        ← get_next_image_x, ih]

lemma iterate_get_next_image_y (n : ℕ) (b : BallState) :
    ((get_next_image^[n] b).position_y, (get_next_image^[n] b).speed_y) =
      (stepAxis SCREEN_WIDTH)^[n] (b.position_y, b.speed_y) := by
  induction n generalizing b with
  | zero => simp
  | succ n ih =>
      rw [Function.iterate_succ_apply, Function.iterate_succ_apply,
        ← get_next_image_y, ih]

lemma axisInv_step {B : ℤ} (hB : 41 ≤ B) {pv : ℤ × ℤ}
    (h : AxisInv B pv) : AxisInv B (stepAxis B pv) := by
  obtain ⟨p, v⟩ := pv
  simp only [AxisInv, stepAxis, ball_radius] at h ⊢
  rcases h with ⟨hv, h1, h2⟩ | ⟨hv, h1, h2⟩ <;> subst hv <;>
    split <;> rename_i hfar
  · right; constructor; · rfl
    omega
  · split <;> rename_i hnear
    · omega
    · left; omega
  · omega
  · split <;> rename_i hnear
    · left; omega
    · right; omega

lemma axisInv_iterate {B : ℤ} (hB : 41 ≤ B) {pv : ℤ × ℤ}
    (h : AxisInv B pv) (n : ℕ) : AxisInv B ((stepAxis B)^[n] pv) := by
  induction n with
  | zero => simpa
  | succ n ih =>
      rw [Function.iterate_succ_apply']
      exact axisInv_step hB ih

lemma axisInv_bounds {B : ℤ} {pv : ℤ × ℤ} (h : AxisInv B pv) :
    20 ≤ pv.1 ∧ pv.1 ≤ B - 20 := by
  rcases h with ⟨_, h1, h2⟩ | ⟨_, h1, h2⟩ <;> omega

lemma VIDEO_PTIME_eq : VIDEO_PTIME = (4803839602528529 : ℚ) / 2^57 := by
  rw [VIDEO_PTIME, rne]
  norm_num

lemma ptimeTimesClock_eq : ptimeTimesClock = 3000 := by
  rw [ptimeTimesClock, rne, VIDEO_PTIME_eq]
  norm_num [VIDEO_CLOCK_RATE]

lemma timestampStep_eq : timestampStep = 3000 := by
  rw [timestampStep, ptimeTimesClock_eq, pyTrunc]
  norm_num

lemma next_timestamp_calls_eq (n : ℕ) :
    next_timestamp_calls n = ((n : ℤ) * timestampStep, some ((n : ℤ) * timestampStep)) := by
  induction n with
  | zero => simp [next_timestamp_calls, next_timestamp_step]
  | succ n ih =>
      simp only [next_timestamp_calls, ih, next_timestamp_step, Nat.cast_succ]
      rw [add_one_mul]

lemma digitChar_isDigit {d : ℕ} (h : d < 10) : isDigitCh (digitChar d) = true := by
  interval_cases d <;> decide

lemma digitVal_digitChar {d : ℕ} (h : d < 10) : digitVal (digitChar d) = d := by
  interval_cases d <;> decide

lemma natChars_all_digits (n : ℕ) : ∀ c ∈ natChars n, isDigitCh c = true := by
  intro c hc
  rw [natChars] at hc
  split at hc
  · rw [List.mem_singleton] at hc
    subst hc
    decide
  · obtain ⟨d, hd, rfl⟩ := List.mem_map.mp hc
    exact digitChar_isDigit (Nat.digits_lt_base (by norm_num) (List.mem_reverse.mp hd))

lemma natChars_ne_nil (n : ℕ) : natChars n ≠ [] := by
  rw [natChars]
  split
  · simp
  · simpa using Nat.digits_ne_nil_iff_ne_zero.mpr (by assumption)

lemma map_digitVal_digitChar {l : List ℕ} (hl : ∀ d ∈ l, d < 10) :
    l.map (digitVal ∘ digitChar) = l := by
  induction l with
  | nil => rfl
  | cons d ds ih =>
      simp only [List.map_cons, Function.comp_apply]
      rw [digitVal_digitChar (hl d (List.mem_cons_self d ds)),
        ih (fun e he => hl e (List.mem_cons_of_mem d he))]

lemma readNat_natChars (n : ℕ) : readNat (natChars n) = n := by
  rw [readNat, natChars]
  split
  · subst n
    decide
  · rw [List.map_map,
      map_digitVal_digitChar
        (fun d hd => Nat.digits_lt_base (by norm_num) (List.mem_reverse.mp hd)),
      List.reverse_reverse, Nat.ofDigits_digits]

lemma takeWhile_append_of_all {p : Char → Bool} {a : List Char} (r : List Char)
    (h : ∀ c ∈ a, p c = true) :
    (a ++ r).takeWhile p = a ++ r.takeWhile p := by
  induction a with
  | nil => rfl
  | cons c cs ih =>
      have hc : p c = true := h c (List.mem_cons_self c cs)
      simp only [List.cons_append, List.takeWhile_cons, hc, if_true]
      rw [ih (fun d hd => h d (List.mem_cons_of_mem c hd))]

lemma dropWhile_append_of_all {p : Char → Bool} {a : List Char} (r : List Char)
    (h : ∀ c ∈ a, p c = true) :
    (a ++ r).dropWhile p = r.dropWhile p := by
  induction a with
  | nil => rfl
  | cons c cs ih =>
      have hc : p c = true := h c (List.mem_cons_self c cs)
      simp only [List.cons_append, List.dropWhile_cons, hc, if_true]
      exact ih (fun d hd => h d (List.mem_cons_of_mem c hd))

lemma dropWhile_eq_self_of_takeWhile_nil {p : Char → Bool} {r : List Char}
    (h : r.takeWhile p = []) : r.dropWhile p = r := by
  cases r with
  | nil => rfl
  | cons c cs =>
      rw [List.takeWhile_cons] at h
      rw [List.dropWhile_cons]
      split at h
      · simp at h
      · rw [if_neg (by assumption)]

lemma parseNatTok_append (n : ℕ) (r : List Char)
    (hr : r.takeWhile isDigitCh = []) :
    parseNatTok (natChars n ++ r) = some (n, r) := by
  rw [parseNatTok,
    takeWhile_append_of_all r (natChars_all_digits n), hr,
    dropWhile_append_of_all r (natChars_all_digits n),
    dropWhile_eq_self_of_takeWhile_nil hr, List.append_nil]
  rw [if_neg (natChars_ne_nil n), readNat_natChars]

lemma parseIntTok_append (x : ℤ) (r : List Char)
    (hr : r.takeWhile isDigitCh = []) :
    parseIntTok (intChars x ++ r) = some (x, r) := by
  rcases lt_or_le x 0 with hx | hx
  · rw [intChars, if_pos hx]
    show parseIntTok ('-' :: (natChars (-x).toNat ++ r)) = _
    rw [parseIntTok, if_pos rfl, parseNatTok_append _ _ hr]
    have h1 : ((-x).toNat : ℤ) = -x := Int.toNat_of_nonneg (by omega)
    simp [h1]
  · rw [intChars, if_neg (not_lt.mpr hx)]
    obtain ⟨c, cs, hc⟩ := List.exists_cons_of_ne_nil (natChars_ne_nil x.toNat)
    have hlist : natChars x.toNat ++ r = c :: (cs ++ r) := by rw [hc]; rfl
    rw [hlist, parseIntTok]
    have hcd : isDigitCh c = true :=
      natChars_all_digits _ c (hc ▸ List.mem_cons_self c cs)
    have hcne : ¬(c = '-') := by
      intro h
      rw [h] at hcd
      exact absurd hcd (by decide)
    rw [if_neg hcne, ← hlist, parseNatTok_append _ _ hr]
    simp [Int.toNat_of_nonneg hx]

lemma dropLit_append (p r : List Char) : dropLit p (p ++ r) = some r := by
  induction p with
  | nil => rfl
  | cons c cs ih => simp [dropLit, ih]

lemma parse_serialize_roundtrip (x y : ℤ) :
    parseCoordChars (serializeCoordChars x y) = some (x, y) := by
  have hr1 : (keyYLit ++ (intChars y ++ [rbrace])).takeWhile isDigitCh = [] := by
    rw [keyYLit, List.cons_append, List.takeWhile_cons, if_neg (by decide)]
  have hr2 : ([rbrace] : List Char).takeWhile isDigitCh = [] := by
    rw [List.takeWhile_cons, if_neg (by decide)]
  have hser : serializeCoordChars x y =
      keyXLit ++ (intChars x ++ (keyYLit ++ (intChars y ++ [rbrace]))) := by
    simp [serializeCoordChars, List.append_assoc]
  rw [hser, parseCoordChars]
  simp only [dropLit_append, parseIntTok_append _ _ hr1, parseIntTok_append _ _ hr2]
  simp

lemma stepAxis_straight (n : ℕ) (h : n ≤ 299) :
    (stepAxis SCREEN_HEIGHT)^[n] (320, 1) = (320 + (n : ℤ), 1) := by
  induction n with
  | zero => simp
  | succ n ih =>
      rw [Function.iterate_succ_apply', ih (by omega)]
      simp only [stepAxis, ball_radius, SCREEN_HEIGHT]
      rw [if_neg (by omega), if_neg (by omega)]
      push_cast
      ring_nf

lemma stepAxis_300 : (stepAxis SCREEN_HEIGHT)^[300] (320, 1) = (620, -1) := by
  rw [show (300 : ℕ) = 299 + 1 from rfl, Function.iterate_succ_apply',
    stepAxis_straight 299 (by omega)]
  simp only [stepAxis, ball_radius, SCREEN_HEIGHT]
  rw [if_pos (by norm_num)]
  norm_num

lemma stepAxis_301 : (stepAxis SCREEN_HEIGHT)^[301] (320, 1) = (619, -1) := by
  rw [show (301 : ℕ) = 300 + 1 from rfl, Function.iterate_succ_apply', stepAxis_300]
  simp only [stepAxis, ball_radius, SCREEN_HEIGHT]
  rw [if_neg (by norm_num), if_neg (by norm_num)]
  norm_num

lemma setLocalDescription_ok {s s1 : NegotiationState}
    (h : setLocalDescription s = .ok s1) :
    s.localApplied = 0 ∧ s1 = ⟨1, s.remoteApplied⟩ := by
  rw [setLocalDescription] at h
  split at h
  · exact absurd h (by simp)
  · rename_i hlt
    injection h with h1
    have h0 : s.localApplied = 0 := by omega
    refine ⟨h0, ?_⟩
    rw [← h1]
    cases s
    simp_all

lemma setRemoteDescription_ok {s s1 : NegotiationState}
    (h : setRemoteDescription s = .ok s1) :
    s.remoteApplied = 0 ∧ s1 = ⟨s.localApplied, 1⟩ := by
  rw [setRemoteDescription] at h
  split at h
  · exact absurd h (by simp)
  · rename_i hlt
    injection h with h1
    have h0 : s.remoteApplied = 0 := by omega
    refine ⟨h0, ?_⟩
    rw [← h1]
    cases s
    simp_all

lemma consume_signaling_ok_bounds (msgs : List SigMsg) :
    ∀ s s' : NegotiationState, s.localApplied ≤ 1 → s.remoteApplied ≤ 1 →
      consume_signaling msgs s = .ok s' →
      s'.localApplied ≤ 1 ∧ s'.remoteApplied ≤ 1 := by
  induction msgs with
  | nil =>
      intro s s' hl hr h
      rw [consume_signaling] at h
      injection h with h1
      exact h1 ▸ ⟨hl, hr⟩
  | cons m rest ih =>
      intro s s' hl hr h
      cases m with
      | desc t =>
          rw [consume_signaling] at h
          split at h
          · exact absurd h (by simp)
          · rename_i s1 heq
            obtain ⟨-, hs1⟩ := setRemoteDescription_ok heq
            split at h
            · split at h
              · exact absurd h (by simp)
              · rename_i s2 heq2
                obtain ⟨-, hs2⟩ := setLocalDescription_ok heq2
                exact ih s2 s' (by simp [hs2]) (by simp [hs2, hs1]) h
            · exact ih s1 s' (by simp [hs1]; exact hl) (by simp [hs1]) h
      | candidate =>
          rw [consume_signaling] at h
          exact ih s s' hl hr h
      | bye =>
          rw [consume_signaling] at h
          injection h with h1
          exact h1 ▸ ⟨hl, hr⟩

/-! ## Claims -/

/-- Claim C1, counterexample: the starting position (620, 240) is
radius-respecting (`radius ≤ position ≤ boundary - radius` on both axes),
yet after a single `get_next_image` tick `position_x = 621`, outside
`[radius, SCREEN_HEIGHT - radius]`: reflection only flips the speed, the
position is not clamped, so a start at the far threshold overshoots. -/
theorem c1_counterexample :
    ((20 : ℤ) ≤ 620 ∧ (620 : ℤ) ≤ SCREEN_HEIGHT - 20 ∧
      (20 : ℤ) ≤ 240 ∧ (240 : ℤ) ≤ SCREEN_WIDTH - 20) ∧
    (get_next_image ⟨620, 240, 1, 1⟩).position_x = 621 ∧
    ¬((get_next_image ⟨620, 240, 1, 1⟩).position_x ≤ SCREEN_HEIGHT - 20) := by
  decide

/-- Claim C1 (amended): for every starting position with
`radius ≤ position ≤ boundary - radius - 1` on each axis (strictly below
the far reflection threshold) and the initial velocity (+1, +1) of
`__init__`, after every number of `get_next_image` ticks the position
stays within `[radius, boundary - radius]` on each axis. -/
theorem c1_amended (x0 y0 : ℤ)
    (hx0 : ball_radius ≤ x0) (hx1 : x0 ≤ SCREEN_HEIGHT - ball_radius - 1)
    (hy0 : ball_radius ≤ y0) (hy1 : y0 ≤ SCREEN_WIDTH - ball_radius - 1)
    (n : ℕ) :
    ball_radius ≤ (get_next_image^[n] ⟨x0, y0, 1, 1⟩).position_x ∧
    (get_next_image^[n] ⟨x0, y0, 1, 1⟩).position_x ≤ SCREEN_HEIGHT - ball_radius ∧
    ball_radius ≤ (get_next_image^[n] ⟨x0, y0, 1, 1⟩).position_y ∧
    (get_next_image^[n] ⟨x0, y0, 1, 1⟩).position_y ≤ SCREEN_WIDTH - ball_radius := by
  have hbr : ball_radius = (20 : ℤ) := rfl
  have hH : SCREEN_HEIGHT = (640 : ℤ) := rfl
  have hW : SCREEN_WIDTH = (480 : ℤ) := rfl
  rw [hbr] at hx0 hy0
  rw [hbr, hH] at hx1
  rw [hbr, hW] at hy1
  have hxpair :
      ((get_next_image^[n] ⟨x0, y0, 1, 1⟩).position_x,
        (get_next_image^[n] ⟨x0, y0, 1, 1⟩).speed_x) =
        (stepAxis SCREEN_HEIGHT)^[n] (x0, 1) :=
    iterate_get_next_image_x n ⟨x0, y0, 1, 1⟩
  have hypair :
      ((get_next_image^[n] ⟨x0, y0, 1, 1⟩).position_y,
        (get_next_image^[n] ⟨x0, y0, 1, 1⟩).speed_y) =
        (stepAxis SCREEN_WIDTH)^[n] (y0, 1) :=
    iterate_get_next_image_y n ⟨x0, y0, 1, 1⟩
  have hx_inv : AxisInv SCREEN_HEIGHT (x0, 1) :=
    Or.inl ⟨rfl, hx0, by rw [hH]; omega⟩
  have hy_inv : AxisInv SCREEN_WIDTH (y0, 1) :=
    Or.inl ⟨rfl, hy0, by rw [hW]; omega⟩
  have hix := axisInv_iterate (by rw [hH]; norm_num) hx_inv n
  have hiy := axisInv_iterate (by rw [hW]; norm_num) hy_inv n
  obtain ⟨hxa, hxb⟩ := axisInv_bounds hix
  obtain ⟨hya, hyb⟩ := axisInv_bounds hiy
  have hxe := congrArg Prod.fst hxpair
  have hye := congrArg Prod.fst hypair
  simp only at hxe hye
  refine ⟨?_, ?_, ?_, ?_⟩ <;> rw [hbr] <;> first
    | (rw [hxe]; exact hxa)
    | (rw [hxe]; exact hxb)
    | (rw [hye]; exact hya)
    | (rw [hye]; exact hyb)

/-- Claim C1 witness: the amended containment at the concrete start
(320, 240) after 5 ticks. -/
theorem c1_amended_witness :
    ball_radius ≤ (get_next_image^[5] (⟨320, 240, 1, 1⟩ : BallState)).position_x ∧
    (get_next_image^[5] (⟨320, 240, 1, 1⟩ : BallState)).position_x ≤
      SCREEN_HEIGHT - ball_radius ∧
    ball_radius ≤ (get_next_image^[5] (⟨320, 240, 1, 1⟩ : BallState)).position_y ∧
    (get_next_image^[5] (⟨320, 240, 1, 1⟩ : BallState)).position_y ≤
      SCREEN_WIDTH - ball_radius :=
  c1_amended 320 240 (by decide) (by decide) (by decide) (by decide) 5

/-- Claim C2: the first `next_timestamp` call returns 0, the n-th call
(0-indexed) returns `n * int(VIDEO_PTIME * VIDEO_CLOCK_RATE)` ticks with
the increment equal to 3000, and the sequence of returned timestamps is
strictly increasing, so no timestamp is ever reused. -/
theorem c2_next_timestamp_exact :
    (next_timestamp_calls 0).1 = 0 ∧
    (∀ n : ℕ, (next_timestamp_calls n).1 = (n : ℤ) * timestampStep) ∧
    timestampStep = 3000 ∧
    (∀ m n : ℕ, m < n →
      (next_timestamp_calls m).1 < (next_timestamp_calls n).1) := by
  refine ⟨?_, ?_, timestampStep_eq, ?_⟩
  · rw [next_timestamp_calls_eq]
    simp
  · intro n
    rw [next_timestamp_calls_eq]
  · intro m n h
    rw [next_timestamp_calls_eq, next_timestamp_calls_eq]
    simp only
    rw [timestampStep_eq]
    have hmn : (m : ℤ) < (n : ℤ) := by exact_mod_cast h
    omega

/-- Claim C2 witness: the strict-increase part at calls 0 and 2. -/
theorem c2_witness :
    (next_timestamp_calls 0).1 < (next_timestamp_calls 2).1 :=
  c2_next_timestamp_exact.2.2.2 0 2 (by decide)

/-- Claim C3, counterexample: the ball does not start at
`(position_x, position_y) = (240, 320)`; `__init__` sets
`position_x = 640 // 2 = 320` and `position_y = 480 // 2 = 240`. -/
theorem c3_counterexample :
    ¬(ballInit.position_x = 240 ∧ ballInit.position_y = 320) := by
  decide

/-- Claim C3 (amended): the ball starts at
`(position_x, position_y) = (320, 240)`, the center of the 640×480
rectangle, with radius 20 and velocity (+1, +1); tick 300 is the first at
which `position_x + 20 >= 640`, and on the next tick `speed_x = -1`. -/
theorem c3_amended :
    ballInit = ⟨320, 240, 1, 1⟩ ∧
    (∀ m : ℕ, m < 300 →
      (get_next_image^[m] ballInit).position_x + ball_radius < SCREEN_HEIGHT) ∧
    (get_next_image^[300] ballInit).position_x + ball_radius ≥ SCREEN_HEIGHT ∧
    (get_next_image^[301] ballInit).speed_x = -1 := by
  have hb : ballInit = ⟨320, 240, 1, 1⟩ := by decide
  refine ⟨hb, ?_, ?_, ?_⟩
  · intro m hm
    have hxpair :
        ((get_next_image^[m] ballInit).position_x,
          (get_next_image^[m] ballInit).speed_x) =
          (stepAxis SCREEN_HEIGHT)^[m] (320, 1) := by
      rw [hb]
      exact iterate_get_next_image_x m ⟨320, 240, 1, 1⟩
    have hxe := congrArg Prod.fst hxpair
    simp only at hxe
    rw [hxe, stepAxis_straight m (by omega)]
    simp only [ball_radius, SCREEN_HEIGHT]
    omega
  · have hxpair :
        ((get_next_image^[300] ballInit).position_x,
          (get_next_image^[300] ballInit).speed_x) =
          (stepAxis SCREEN_HEIGHT)^[300] (320, 1) := by
      rw [hb]
      exact iterate_get_next_image_x 300 ⟨320, 240, 1, 1⟩
    have hxe := congrArg Prod.fst hxpair
    simp only at hxe
    rw [hxe, stepAxis_300]
    decide
  · have hxpair :
        ((get_next_image^[301] ballInit).position_x,
          (get_next_image^[301] ballInit).speed_x) =
          (stepAxis SCREEN_HEIGHT)^[301] (320, 1) := by
      rw [hb]
      exact iterate_get_next_image_x 301 ⟨320, 240, 1, 1⟩
    have hxe := congrArg Prod.snd hxpair
    simp only at hxe
    rw [hxe, stepAxis_301]

/-- Claim C3 witness: the first-contact bound at the concrete tick 299. -/
theorem c3_amended_witness :
    (get_next_image^[299] ballInit).position_x + ball_radius < SCREEN_HEIGHT :=
  c3_amended.2.1 299 (by decide)

/-- Claim C4: `compute_error` is the Euclidean distance: it equals
`sqrt(x0² + y0²)` for report (0, 0), equals 0 when the report equals the
ground truth, is non-negative, and is symmetric in the two points. -/
theorem c4_compute_error_props (b : BallState) (x y : ℤ) :
    compute_error b (0, 0) =
      Real.sqrt ((b.position_x : ℝ) ^ 2 + (b.position_y : ℝ) ^ 2) ∧
    compute_error b (b.position_x, b.position_y) = 0 ∧
    0 ≤ compute_error b (x, y) ∧
    compute_error b (x, y) =
      compute_error ⟨x, y, b.speed_x, b.speed_y⟩ (b.position_x, b.position_y) := by
  refine ⟨?_, ?_, Real.sqrt_nonneg _, ?_⟩
  · rw [compute_error]
    congr 1
    push_cast
    ring
  · rw [compute_error]
    simp
  · rw [compute_error, compute_error]
    congr 1
    ring

/-- Claim C5: at most one local and at most one remote descriptor are ever
applied in any successful offerer run; a second local descriptor without an
intervening remote one is a `ProtocolViolation`; a connectivity candidate
is accepted without error in any state, including before any descriptor. -/
theorem c5_single_descriptor :
    (∀ (msgs : List SigMsg) (s' : NegotiationState),
      run_offer msgs = .ok s' → s'.localApplied ≤ 1 ∧ s'.remoteApplied ≤ 1) ∧
    (∀ s1 : NegotiationState, setLocalDescription initialNegotiation = .ok s1 →
      setLocalDescription s1 = .error .duplicateDescriptor) ∧
    (∀ s : NegotiationState, addIceCandidate s = .ok s) := by
  refine ⟨?_, ?_, fun s => rfl⟩
  · intro msgs s' h
    rw [run_offer] at h
    split at h
    · exact absurd h (by simp)
    · rename_i s1 heq
      obtain ⟨-, hs1⟩ := setLocalDescription_ok heq
      exact consume_signaling_ok_bounds msgs s1 s' (by simp [hs1])
        (by simp [hs1, initialNegotiation]) h
  · intro s1 h
    obtain ⟨-, hs1⟩ := setLocalDescription_ok h
    rw [hs1]
    simp [setLocalDescription]

/-- Claim C5 witness: a successful offerer run over one inbound answer, one
candidate and BYE, the duplicate-local error from the fresh state, and
candidate acceptance in the fresh state. -/
theorem c5_witness :
    (((⟨1, 1⟩ : NegotiationState).localApplied ≤ 1 ∧
      (⟨1, 1⟩ : NegotiationState).remoteApplied ≤ 1)) ∧
    setLocalDescription ⟨1, 0⟩ = .error .duplicateDescriptor ∧
    addIceCandidate initialNegotiation = .ok initialNegotiation :=
  ⟨c5_single_descriptor.1 [.desc .answer, .candidate, .bye] ⟨1, 1⟩ rfl,
    c5_single_descriptor.2.1 ⟨1, 0⟩ rfl,
    c5_single_descriptor.2.2 initialNegotiation⟩

/-- Claim C6, counterexample: the bytes message `[0, 1, 2]` is not
parseable as a coordinate pair, yet `on_message` neither raises nor
reports anything: the `isinstance(message, str)` guard silently skips it. -/
theorem c6_counterexample :
    on_message (DCMessage.bytesMsg [0, 1, 2]) = .ok none ∧
    ¬(on_message (DCMessage.bytesMsg [0, 1, 2]) = .error ()) := by
  refine ⟨rfl, ?_⟩
  simp [on_message]

/-- Claim C6 (amended): a string message that does not parse as a
coordinate pair raises an exception out of the handler (reported, not
swallowed), but a message that is not a `str` instance is silently ignored
by the `isinstance` guard, whatever its content. -/
theorem c6_amended :
    (∀ s : List Char, parseCoordChars s = none →
      on_message (.strMsg s) = .error ()) ∧
    (∀ b : List ℕ, on_message (.bytesMsg b) = .ok none) := by
  refine ⟨?_, fun b => rfl⟩
  intro s h
  simp only [on_message, h]

/-- Claim C6 witness: the unparseable string message `garbage` errors and
a bytes message is ignored. -/
theorem c6_amended_witness :
    on_message (DCMessage.strMsg ['g', 'a', 'r', 'b', 'a', 'g', 'e']) = .error () ∧
    on_message (DCMessage.bytesMsg [123]) = .ok none :=
  ⟨c6_amended.1 ['g', 'a', 'r', 'b', 'a', 'g', 'e'] (by decide),
    c6_amended.2 [123]⟩

/-- Claim C7, counterexample: with start instant 0, wall clock 1 s, and the
incremented timestamp 3000 of the second call, the value handed to
`asyncio.sleep` is `0 + 3000/90000 - 1 < 0`: the pacer does pass a negative
duration to its sleep primitive when the ideal instant is past. -/
theorem c7_counterexample : next_timestamp_wait 0 1 3000 < 0 := by
  rw [next_timestamp_wait]
  norm_num [VIDEO_CLOCK_RATE]

/-- Claim C7 (amended): the wait value handed to `asyncio.sleep` may be
negative when the ideal instant `start + timestamp/clock_rate` is already
past; the effective suspension is never negative — it is 0 exactly then,
so the pacer resumes immediately without error, and otherwise it is the
time remaining until the ideal instant. -/
theorem c7_amended (start now : ℚ) (ts : ℤ) :
    0 ≤ asyncio_sleep_duration (next_timestamp_wait start now ts) ∧
    (start + (ts : ℚ) / (VIDEO_CLOCK_RATE : ℚ) ≤ now →
      asyncio_sleep_duration (next_timestamp_wait start now ts) = 0) ∧
    (now ≤ start + (ts : ℚ) / (VIDEO_CLOCK_RATE : ℚ) →
      asyncio_sleep_duration (next_timestamp_wait start now ts) =
        next_timestamp_wait start now ts) := by
  refine ⟨le_max_right _ _, ?_, ?_⟩
  · intro h
    have hw : next_timestamp_wait start now ts ≤ 0 := by
      rw [next_timestamp_wait]
      linarith
    rw [asyncio_sleep_duration]
    exact max_eq_right hw
  · intro h
    have hw : 0 ≤ next_timestamp_wait start now ts := by
      rw [next_timestamp_wait]
      linarith
    rw [asyncio_sleep_duration]
    exact max_eq_left hw

/-- Claim C7 witness: at the delayed schedule (start 0, now 1, timestamp
3000) the effective suspension is non-negative and equal to 0. -/
theorem c7_amended_witness :
    0 ≤ asyncio_sleep_duration (next_timestamp_wait 0 1 3000) ∧
    asyncio_sleep_duration (next_timestamp_wait 0 1 3000) = 0 :=
  ⟨(c7_amended 0 1 3000).1,
    (c7_amended 0 1 3000).2.1 (by norm_num [VIDEO_CLOCK_RATE])⟩

/-- Claim C8: serializing any integer coordinate pair as the client does
(`str({"x": x, "y": y})`) and deserializing as the server does
(`ast.literal_eval` plus indexing) reproduces exactly the original
integers, with no precision loss. -/
theorem c8_serialization_roundtrip (x y : ℤ) :
    parseCoordChars (serializeCoordChars x y) = some (x, y) :=
  parse_serialize_roundtrip x y

/-- Claim C9: an iteration of the coordinate-sending loop sends only when
the channel is set with `readyState = "open"` and the queue is non-empty,
and a successful iteration dequeues exactly the oldest coordinate and
transmits exactly its serialized form as a single message. -/
theorem c9_reporter_guard (s : ClientLoopState) :
    (∀ m : List Char, (send_coordinates_iteration s).2 = some m →
      s.channel = some "open" ∧ s.coordinate_queue ≠ []) ∧
    (∀ (c : ℤ × ℤ) (rest : List (ℤ × ℤ)),
      s.channel = some "open" → s.coordinate_queue = c :: rest →
      send_coordinates_iteration s =
        (⟨some "open", rest⟩, some (serializeCoordChars c.1 c.2))) := by
  obtain ⟨ch, q⟩ := s
  constructor
  · intro m hm
    cases ch with
    | none => simp [send_coordinates_iteration] at hm
    | some st =>
        cases q with
        | nil => simp [send_coordinates_iteration] at hm
        | cons c rest =>
            by_cases hst : st = "open"
            · subst hst
              exact ⟨rfl, by simp⟩
            · simp [send_coordinates_iteration, hst] at hm
  · intro c rest hch hq
    simp only at hch hq
    subst hch
    subst hq
    simp [send_coordinates_iteration]

/-- Claim C9 witness: with the channel open and one queued coordinate, the
iteration sends exactly that coordinate's serialization and dequeues it. -/
theorem c9_witness :
    ((⟨some "open", [((10 : ℤ), (20 : ℤ))]⟩ : ClientLoopState).channel =
        some "open" ∧
      (⟨some "open", [((10 : ℤ), (20 : ℤ))]⟩ : ClientLoopState).coordinate_queue ≠
        []) ∧
    send_coordinates_iteration ⟨some "open", [(10, 20)]⟩ =
      (⟨some "open", []⟩, some (serializeCoordChars 10 20)) :=
  ⟨(c9_reporter_guard ⟨some "open", [(10, 20)]⟩).1 (serializeCoordChars 10 20) rfl,
    (c9_reporter_guard ⟨some "open", [(10, 20)]⟩).2 (10, 20) [] rfl rfl⟩

/-- Claim C10: in any iteration in which the channel is unset, or its
`readyState` is not `"open"`, or the queue is empty, nothing is dequeued
and nothing is sent: the loop state is returned unchanged, so pending
coordinates are retained. -/
theorem c10_guard_fail_no_effect (s : ClientLoopState)
    (h : s.channel = none ∨ (∃ st, s.channel = some st ∧ st ≠ "open") ∨
      s.coordinate_queue = []) :
    send_coordinates_iteration s = (s, none) := by
  rcases h with h | ⟨st, hst, hne⟩ | h
  · rw [send_coordinates_iteration, h]
  · rcases hq : s.coordinate_queue with _ | ⟨c, rest⟩
    · rw [send_coordinates_iteration, hst, hq]
    · rw [send_coordinates_iteration, hst, hq]
      simp [hne]
  · rcases hch : s.channel with _ | st
    · rw [send_coordinates_iteration, hch]
    · rw [send_coordinates_iteration, hch, h]

/-- Claim C10 witness: with no channel yet, the queued coordinate is
retained and nothing is sent. -/
theorem c10_witness :
    send_coordinates_iteration ⟨none, [((1 : ℤ), (2 : ℤ))]⟩ =
      (⟨none, [((1 : ℤ), (2 : ℤ))]⟩, none) :=
  c10_guard_fail_no_effect ⟨none, [(1, 2)]⟩ (Or.inl rfl)

end WebrtcBall
